import Mathlib

/-!
Verification of the weak-label engineering pipeline of the E-Commerce
product-quality repository (`app/main.py`), against its natural-language
specification.

The pipeline is embedded shallowly: a pandas DataFrame row becomes `Row`
(required columns `catalog_content`, which may be missing/NaN, and `price`);
pandas NaN-able numbers become `Option ℚ` with the pandas comparison semantics
(every comparison with NaN is `false`); the quantile, Tukey-fence, qcut and
groupby-mean computations of `engineer_weak_labels` are translated directly
from the source, and the row-wise `df.apply` that can raise `KeyError` becomes
an `Except String` computation.
-/

namespace ECommerce

/-- One input record: the two columns `engineer_weak_labels` reads. A missing
(NaN) `catalog_content` is `none`; `price` is numeric. -/
structure Row where
  catalog_content : Option String
  price : ℚ
deriving DecidableEq, Inhabited

/-- One output record: the eight derived columns that `engineer_weak_labels`
adds. `word_count` is NaN (`none`) when `catalog_content` is missing, since
`.str.split().str.len()` propagates NaN; `price_bin` is the qcut bin index. -/
structure LabeledRow where
  word_count : Option ℕ
  text_score : ℕ
  price_outlier : Bool
  price_sanity_score : ℕ
  price_bin : Option ℕ
  consistency_score : ℕ
  final_score : ℚ
  quality_label : ℕ
deriving DecidableEq, Inhabited

/-- Number of whitespace-separated tokens of a string, as Python `str.split()`
counts them: the number of maximal runs of non-whitespace characters, i.e. the
number of non-whitespace characters whose predecessor (start of string counts
as whitespace) is whitespace. -/
def tokenCount (s : String) : ℕ :=
  ((s.data.zip (' ' :: s.data)).filter
    (fun p => !p.1.isWhitespace && p.2.isWhitespace)).length

/-- Column `word_count` (main.py line 29):
`df["catalog_content"].str.split().str.len()`. The `.str` accessor propagates
NaN, so a missing text gives a NaN count, not 0. -/
def wordCount : Option String → Option ℕ
  | none => none
  | some s => some (tokenCount s)

/-- Strict comparison with pandas NaN semantics: any comparison against NaN
(`none`) is `false`. -/
def oLT : Option ℚ → Option ℚ → Bool
  | some a, some b => decide (a < b)
  | _, _ => false

/-- Non-strict comparison with pandas NaN semantics. -/
def oLE : Option ℚ → Option ℚ → Bool
  | some a, some b => decide (a ≤ b)
  | _, _ => false

/-- The linear-interpolation quantile of an already sorted non-empty list, at
`q = a / b`, exactly as `Series.quantile` computes it: with `h = q * (n - 1)`,
interpolate between the values at positions `⌊h⌋` and `⌊h⌋ + 1`. Here
`i = ⌊h⌋ = a * (n - 1) / b` (natural division) and the fractional part of `h`
is `(a * (n - 1) % b) / b`. -/
def quantileSorted (s : List ℚ) (a b : ℕ) : ℚ :=
  let n := s.length
  let i := a * (n - 1) / b
  let r := a * (n - 1) % b
  let lo := s.getD i 0
  let hi := s.getD (i + 1) lo
  lo + ((r : ℚ) / (b : ℚ)) * (hi - lo)

/-- `Series.quantile(a / b)` with the default linear interpolation: NaN on an
empty series, else the interpolated value of the sorted data. -/
def pandasQuantile (xs : List ℚ) (a b : ℕ) : Option ℚ :=
  if xs = [] then none else some (quantileSorted (List.insertionSort (· ≤ ·) xs) a b)

/-- Function `text_score` (main.py lines 34-40): `0` when `wc < low_wc`, else
`1` when `wc <= high_wc`, else `2`; NaN comparisons are `false`, so a NaN
`wc` falls through to `2`. -/
def textScore (low high wc : Option ℚ) : ℕ :=
  if oLT wc low then 0 else if oLE wc high then 1 else 2

/-- Column `price_outlier` (main.py line 52):
`(df["price"] < lower) | (df["price"] > upper)`. -/
def priceOutlier (lower upper : Option ℚ) (p : ℚ) : Bool :=
  oLT (some p) lower || oLT upper (some p)

/-- Column `price_sanity_score` (main.py line 53): `(~price_outlier).astype(int)`. -/
def priceSanityScore (outlier : Bool) : ℕ :=
  if outlier then 0 else 1

/-- The bin edges of `pd.qcut(df["price"], q=5, duplicates="drop")` (main.py
line 56): the 0, 0.2, 0.4, 0.6, 0.8 and 1 quantiles of `price`, with duplicate
edges dropped. -/
def qcutEdges (xs : List ℚ) : List ℚ :=
  if xs = [] then []
  else
    (let sp := List.insertionSort (· ≤ ·) xs
     [quantileSorted sp 0 5, quantileSorted sp 1 5, quantileSorted sp 2 5,
      quantileSorted sp 3 5, quantileSorted sp 4 5, quantileSorted sp 5 5]).dedup

/-- Bin assignment of `pd.qcut` on the deduplicated edges: `ids` is
`edges.searchsorted(v, side="left")` (the number of edges strictly below `v`),
then `include_lowest` maps a value equal to the first edge to `ids = 1`; codes
are `ids - 1`, and a value is NaN (unbinned) when `ids` is `0` or the number
of edges — which is every value when only one edge survives deduplication. -/
def binOf (edges : List ℚ) (v : ℚ) : Option ℕ :=
  let ids0 := edges.countP (fun e => decide (e < v))
  let ids := if edges.head? = some v then 1 else ids0
  if ids = 0 ∨ ids = edges.length then none else some (ids - 1)

/-- Row-wise mean `word_count` of one price bin,
`df.groupby("price_bin")["word_count"].mean()` (main.py line 57): pandas
`mean` skips NaN entries and is itself NaN (`none`) when the bin has no
non-missing `word_count`. -/
def binMean (rows : List Row) (edges : List ℚ) (b : ℕ) : Option ℚ :=
  let ws := (rows.filter (fun r => binOf edges r.price = some b)).filterMap
    (fun r => wordCount r.catalog_content)
  if ws = [] then none
  else some ((ws.map (fun k => (k : ℚ))).sum / (ws.length : ℚ))

/-- Function `consistency_score` (main.py lines 59-66): `0` when
`word_count < mean * 0.9`, else `1` when `word_count <= mean * 1.1`, else `2`;
with NaN comparison semantics (NaN `word_count` or NaN bin mean gives `2`). -/
def consistencyScore (wc m : Option ℚ) : ℕ :=
  if oLT wc (m.map (fun x => x * 0.9)) then 0
  else if oLE wc (m.map (fun x => x * 1.1)) then 1
  else 2

/-- Column `final_score` (main.py lines 71-75):
`text_score * 0.5 + price_sanity_score * 0.2 + consistency_score * 0.3`. -/
def finalScore (ts ps cs : ℕ) : ℚ :=
  (ts : ℚ) * 0.5 + (ps : ℚ) * 0.2 + (cs : ℚ) * 0.3

/-- Function `quality_label` (main.py lines 78-84): `0` when
`score <= 0.8`, else `1` when `score <= 1.6`, else `2`. -/
def qualityLabel (s : ℚ) : ℕ :=
  if s ≤ 0.8 then 0 else if s ≤ 1.6 then 1 else 2

/-- Scoring of one row given the table-wide statistics: all eight derived
columns. The lookup `bin_mean_wc[row["price_bin"]]` (main.py line 60) raises
`KeyError` when the row's bin is NaN, because `groupby` drops NaN keys. -/
def scoreRow (low high lower upper : Option ℚ) (edges : List ℚ)
    (bm : ℕ → Option ℚ) (r : Row) : Except String LabeledRow :=
  let wc := wordCount r.catalog_content
  let ts := textScore low high (wc.map (fun k => (k : ℚ)))
  let po := priceOutlier lower upper r.price
  let ps := priceSanityScore po
  match binOf edges r.price with
  | none => .error "KeyError: nan"
  | some b =>
    let cs := consistencyScore (wc.map (fun k => (k : ℚ))) (bm b)
    let fs := finalScore ts ps cs
    .ok { word_count := wc, text_score := ts, price_outlier := po,
          price_sanity_score := ps, price_bin := some b,
          consistency_score := cs, final_score := fs,
          quality_label := qualityLabel fs }

/-- Sequential row-wise application, as `df.apply(..., axis=1)`: the first row
whose scoring raises aborts the whole computation with that error. -/
def applyRows (f : Row → Except String LabeledRow) :
    List Row → Except String (List LabeledRow)
  | [] => .ok []
  | r :: rs =>
    match f r, applyRows f rs with
    | .ok y, .ok ys => .ok (y :: ys)
    | .error e, _ => .error e
    | .ok _, .error e => .error e

/-- The `word_count` entries that enter the word-count quantiles: pandas
`Series.quantile` skips NaN values. -/
def presentWordCounts (rows : List Row) : List ℚ :=
  ((rows.map (fun r => wordCount r.catalog_content)).filterMap id).map
    (fun k => (k : ℚ))

/-- Statistic `low_wc` (main.py line 31): `df["word_count"].quantile(0.25)`. -/
def lowWc (rows : List Row) : Option ℚ :=
  pandasQuantile (presentWordCounts rows) 1 4

/-- Statistic `high_wc` (main.py line 32): `df["word_count"].quantile(0.75)`. -/
def highWc (rows : List Row) : Option ℚ :=
  pandasQuantile (presentWordCounts rows) 3 4

/-- Statistic `Q1` (main.py line 45): `df["price"].quantile(0.25)`. -/
def priceQ1 (rows : List Row) : Option ℚ :=
  pandasQuantile (rows.map Row.price) 1 4

/-- Statistic `Q3` (main.py line 46): `df["price"].quantile(0.75)`. -/
def priceQ3 (rows : List Row) : Option ℚ :=
  pandasQuantile (rows.map Row.price) 3 4

/-- Statistic `lower` (main.py line 49): `Q1 - 1.5 * IQR` where `IQR = Q3 - Q1`. -/
def fenceLower (rows : List Row) : Option ℚ :=
  match priceQ1 rows, priceQ3 rows with
  | some a, some c => some (a - 1.5 * (c - a))
  | _, _ => none

/-- Statistic `upper` (main.py line 50): `Q3 + 1.5 * IQR`. -/
def fenceUpper (rows : List Row) : Option ℚ :=
  match priceQ1 rows, priceQ3 rows with
  | some a, some c => some (c + 1.5 * (c - a))
  | _, _ => none

/-- Shallow embedding of `engineer_weak_labels` (main.py lines 19-88): the
first pass computes the table-wide statistics (word-count quartiles, price
quartiles and Tukey fences, qcut bin edges, per-bin mean word counts), the
second pass scores every row. -/
def engineerWeakLabels (rows : List Row) : Except String (List LabeledRow) :=
  applyRows
    (scoreRow (lowWc rows) (highWc rows) (fenceLower rows) (fenceUpper rows)
      (qcutEdges (rows.map Row.price))
      (binMean rows (qcutEdges (rows.map Row.price))))
    rows

/-- State of the caller's DataFrame variable: the base columns and, once
assigned, the derived columns. Before a call the derived part is `none`. -/
abbrev TableState := List Row × Option (List LabeledRow)

/-- Call semantics of `engineer_weak_labels`: every derived column is assigned
onto the argument DataFrame itself (`df["word_count"] = ...`, main.py line 29
and onwards), and that same DataFrame object is returned (line 88). The result
pairs the caller's table as it stands after the call with the returned table:
both are the same augmented table. -/
def engineerWeakLabelsCall (base : List Row) :
    Except String (TableState × TableState) :=
  match engineerWeakLabels base with
  | .error e => .error e
  | .ok d => .ok ((base, some d), (base, some d))

/-- The four files a pipeline run can persist. -/
inductive Artifact
  | labeledCsv
  | modelPkl
  | tfidfPkl
  | scalerPkl
deriving DecidableEq

/-- Persistence events of one run of `main` in program order: `main` writes
the labeled csv (main.py line 197) before it calls `train_baseline_model`
(line 202), which fits the model (`none`: no file is written by fitting) and
then dumps the classifier, the vectorizer and the scaler in that order
(lines 156-158). -/
def runPersistSteps : List (Option Artifact) :=
  [some .labeledCsv, none, some .modelPkl, some .tfidfPkl, some .scalerPkl]

/-- Files persisted when the run stops after its first `k` steps complete
(`k = 5` is a full run; a failure in training is `k = 2`: the csv write and
the fit attempt happened, nothing later did). -/
def persistedAfter (k : ℕ) : List Artifact :=
  (runPersistSteps.take k).filterMap id

/-- Candidate terms of one tokenized document: its unigrams and its adjacent
bigrams, matching `ngram_range=(1, 2)`. -/
def docTerms (d : List String) : List (List String) :=
  d.map (fun t => [t]) ++ (d.zip d.tail).map (fun p => [p.1, p.2])

/-- Number of documents of a corpus containing a term. -/
def documentFrequency (docs : List (List String)) (t : List String) : ℕ :=
  docs.countP (fun d => decide (t ∈ docTerms d))

/-- Total number of occurrences of a term in a corpus. -/
def corpusFrequency (docs : List (List String)) (t : List String) : ℕ :=
  (docs.map (fun d => (docTerms d).count t)).sum

/-- Modelled from the spec: the text vectorizer (sklearn's TfidfVectorizer,
which is not part of this repository) builds its vocabulary from the documents
it is fitted on alone: the unigram and bigram terms of those documents, kept
when their document frequency is at least 5 (`min_df=5`) and at most 90% of
the fitted documents (`max_df=0.9`), capped at the 40000 most frequent terms
(`max_features=40000`); the stop-word filter and the tf-idf weighting are
omitted, being irrelevant to which split the vocabulary is computed from. -/
def fitVocabulary (docs : List (List String)) : List (List String) :=
  let cands := (docs.flatMap docTerms).dedup
  let kept := cands.filter (fun t =>
    decide (5 ≤ documentFrequency docs t) &&
      decide ((documentFrequency docs t : ℚ) ≤ 0.9 * (docs.length : ℚ)))
  (List.insertionSort
    (fun t u => corpusFrequency docs u ≤ corpusFrequency docs t) kept).take 40000

/-- Modelled from the spec: transforming one document against a fitted
vocabulary counts each vocabulary term's occurrences in the document; it reads
nothing but the document and the vocabulary. -/
def transformDoc (vocab : List (List String)) (d : List String) : List ℕ :=
  vocab.map (fun t => (docTerms d).count t)

/-- The text-feature data flow of `train_baseline_model` (main.py lines
116-125): the vectorizer's vocabulary is fitted on the training split's
`catalog_content` only (`tfidf.fit_transform(X_text_train)`, line 124), and
the validation split is only transformed with that training-fitted vocabulary
(`tfidf.transform(X_text_val)`, line 125). Result: the learned vocabulary and
the transformed training and validation matrices. -/
def trainTextFeatures (trainDocs valDocs : List (List String)) :
    List (List String) × List (List ℕ) × List (List ℕ) :=
  let vocab := fitVocabulary trainDocs
  (vocab, trainDocs.map (transformDoc vocab), valDocs.map (transformDoc vocab))

/-- Sample table shared by the concrete runs below: one record with missing
`catalog_content`, three with text, four distinct prices. -/
def sampleRows : List Row :=
  [⟨none, 4⟩, ⟨some "a b", 1⟩, ⟨some "c d e f", 2⟩, ⟨some "g", 3⟩]

/-- Derived columns `engineer_weak_labels` computes for `sampleRows`. -/
def sampleOut : List LabeledRow :=
  [⟨none, 2, false, 1, some 4, 2, 9/5, 2⟩,
   ⟨some 2, 1, false, 1, some 0, 1, 1, 1⟩,
   ⟨some 4, 2, false, 1, some 1, 1, 3/2, 1⟩,
   ⟨some 1, 0, false, 1, some 3, 1, 1/2, 0⟩]

/-- The outlier scenario of the spec: an otherwise tight price distribution
(four records at price 10) and a single record priced at 100 times the
median price. -/
def outlierScenarioRows : List Row :=
  [⟨some "x", 10⟩, ⟨some "x", 10⟩, ⟨some "x", 10⟩, ⟨some "x", 10⟩,
   ⟨some "x", 1000⟩]

/-- Derived columns `engineer_weak_labels` computes for the outlier
scenario. -/
def outlierScenarioOut : List LabeledRow :=
  [⟨some 1, 1, false, 1, some 0, 1, 1, 1⟩,
   ⟨some 1, 1, false, 1, some 0, 1, 1, 1⟩,
   ⟨some 1, 1, false, 1, some 0, 1, 1, 1⟩,
   ⟨some 1, 1, false, 1, some 0, 1, 1, 1⟩,
   ⟨some 1, 1, true, 0, some 1, 1, 4/5, 0⟩]

/-- Degenerate table on which the pipeline crashes: both required columns are
present but every price is identical, so `pd.qcut(..., duplicates="drop")`
collapses to a single bin edge and every `price_bin` is NaN. -/
def constPriceRows : List Row :=
  [⟨some "a", 10⟩, ⟨some "b c", 10⟩, ⟨some "d", 10⟩]

theorem wordCount_some (s : String) : wordCount (some s) = some (tokenCount s) :=
  rfl

theorem wordCount_none : wordCount none = none :=
  rfl

theorem applyRows_ok_cons {f : Row → Except String LabeledRow} {r : Row}
    {rs : List Row} {out : List LabeledRow}
    (h : applyRows f (r :: rs) = .ok out) :
    ∃ y ys, f r = .ok y ∧ applyRows f rs = .ok ys ∧ out = y :: ys := by
  cases hf : f r with
  | error e => simp [applyRows, hf] at h
  | ok y =>
    cases hrs : applyRows f rs with
    | error e => simp [applyRows, hf, hrs] at h
    | ok ys =>
      simp [applyRows, hf, hrs] at h
      exact ⟨y, ys, rfl, rfl, h.symm⟩

theorem applyRows_ok_length {f : Row → Except String LabeledRow} :
    ∀ {l : List Row} {out : List LabeledRow},
      applyRows f l = .ok out → out.length = l.length := by
  intro l
  induction l with
  | nil =>
    intro out h
    simp [applyRows] at h
    simp [← h]
  | cons r rs ih =>
    intro out h
    obtain ⟨y, ys, _, hys, rfl⟩ := applyRows_ok_cons h
    simp [ih hys]

theorem applyRows_ok_mem {f : Row → Except String LabeledRow} :
    ∀ {l : List Row} {out : List LabeledRow}, applyRows f l = .ok out →
      ∀ y ∈ out, ∃ r ∈ l, f r = .ok y := by
  intro l
  induction l with
  | nil =>
    intro out h y hy
    simp [applyRows] at h
    rw [h] at hy
    simp at hy
  | cons r rs ih =>
    intro out h y hy
    obtain ⟨z, zs, hz, hzs, rfl⟩ := applyRows_ok_cons h
    rcases List.mem_cons.mp hy with rfl | hy2
    · exact ⟨r, List.mem_cons_self r rs, hz⟩
    · obtain ⟨r2, hr2, hfr2⟩ := ih hzs y hy2
      exact ⟨r2, List.mem_cons_of_mem r hr2, hfr2⟩

theorem applyRows_ok_get {f : Row → Except String LabeledRow} :
    ∀ {l : List Row} {out : List LabeledRow}, applyRows f l = .ok out →
      ∀ i (h1 : i < l.length) (h2 : i < out.length),
        f (l.get ⟨i, h1⟩) = .ok (out.get ⟨i, h2⟩) := by
  intro l
  induction l with
  | nil =>
    intro out h i h1 h2
    simp at h1
  | cons r rs ih =>
    intro out h i h1 h2
    obtain ⟨y, ys, hy, hys, rfl⟩ := applyRows_ok_cons h
    cases i with
    | zero => simpa using hy
    | succ j =>
      simp only [List.length_cons, Nat.succ_lt_succ_iff] at h1 h2
      simpa using ih hys j h1 h2

theorem scoreRow_ok_fields {low high lower upper : Option ℚ} {edges : List ℚ}
    {bm : ℕ → Option ℚ} {r : Row} {y : LabeledRow}
    (h : scoreRow low high lower upper edges bm r = .ok y) :
    y.word_count = wordCount r.catalog_content ∧
    y.text_score =
      textScore low high ((wordCount r.catalog_content).map (fun k => (k : ℚ))) ∧
    y.price_outlier = priceOutlier lower upper r.price ∧
    y.price_sanity_score = priceSanityScore y.price_outlier ∧
    (∃ b, binOf edges r.price = some b ∧ y.price_bin = some b ∧
      y.consistency_score =
        consistencyScore ((wordCount r.catalog_content).map (fun k => (k : ℚ)))
          (bm b)) ∧
    y.final_score =
      finalScore y.text_score y.price_sanity_score y.consistency_score ∧
    y.quality_label = qualityLabel y.final_score := by
  cases hb : binOf edges r.price with
  | none => simp [scoreRow, hb] at h
  | some b =>
    unfold scoreRow at h
    simp only [hb] at h
    injection h with h
    subst h
    exact ⟨rfl, rfl, rfl, rfl, ⟨b, rfl, rfl, rfl⟩, rfl, rfl⟩

theorem textScore_cases (low high wc : Option ℚ) :
    textScore low high wc = 0 ∨ textScore low high wc = 1 ∨
      textScore low high wc = 2 := by
  unfold textScore
  split
  · exact Or.inl rfl
  · split
    · exact Or.inr (Or.inl rfl)
    · exact Or.inr (Or.inr rfl)

theorem priceSanityScore_cases (b : Bool) :
    priceSanityScore b = 0 ∨ priceSanityScore b = 1 := by
  cases b <;> simp [priceSanityScore]

theorem consistencyScore_cases (wc m : Option ℚ) :
    consistencyScore wc m = 0 ∨ consistencyScore wc m = 1 ∨
      consistencyScore wc m = 2 := by
  unfold consistencyScore
  split
  · exact Or.inl rfl
  · split
    · exact Or.inr (Or.inl rfl)
    · exact Or.inr (Or.inr rfl)

theorem qualityLabel_cases (s : ℚ) :
    qualityLabel s = 0 ∨ qualityLabel s = 1 ∨ qualityLabel s = 2 := by
  unfold qualityLabel
  split
  · exact Or.inl rfl
  · split
    · exact Or.inr (Or.inl rfl)
    · exact Or.inr (Or.inr rfl)

theorem getD_sorted_le {s : List ℚ} (hs : List.Sorted (· ≤ ·) s) {i j : ℕ}
    (hij : i ≤ j) (hj : j < s.length) : s.getD i 0 ≤ s.getD j 0 := by
  have hi : i < s.length := Nat.lt_of_le_of_lt hij hj
  rw [List.getD_eq_getElem _ _ hi, List.getD_eq_getElem _ _ hj]
  rcases Nat.eq_or_lt_of_le hij with rfl | hlt
  · exact le_refl _
  · have h2 := hs.rel_get_of_lt
      (a := ⟨i, hi⟩) (b := ⟨j, hj⟩) (by exact hlt)
    simpa using h2

theorem quantile_lo_le_hi {s : List ℚ} (hs : List.Sorted (· ≤ ·) s) (i : ℕ) :
    s.getD i 0 ≤ s.getD (i + 1) (s.getD i 0) := by
  by_cases h1 : i + 1 < s.length
  · have h2 := getD_sorted_le hs (Nat.le_succ i) h1
    rw [List.getD_eq_getElem _ _ h1] at h2
    rwa [List.getD_eq_getElem _ _ h1]
  · rw [List.getD_eq_default _ _ (Nat.le_of_not_lt h1)]

theorem quantileSorted_bounds {s : List ℚ} (hs : List.Sorted (· ≤ ·) s)
    {a b : ℕ} (hb : 0 < b) :
    s.getD (a * (s.length - 1) / b) 0 ≤ quantileSorted s a b ∧
    quantileSorted s a b ≤
      s.getD (a * (s.length - 1) / b + 1) (s.getD (a * (s.length - 1) / b) 0) := by
  have hf0 : (0 : ℚ) ≤ ((a * (s.length - 1) % b : ℕ) : ℚ) / (b : ℚ) := by
    positivity
  have hf1 : ((a * (s.length - 1) % b : ℕ) : ℚ) / (b : ℚ) ≤ 1 := by
    rw [div_le_one (by exact_mod_cast hb)]
    exact_mod_cast Nat.le_of_lt (Nat.mod_lt _ hb)
  have hlh := quantile_lo_le_hi hs (a * (s.length - 1) / b)
  have hpos := mul_nonneg hf0 (sub_nonneg.mpr hlh)
  have hle := mul_le_of_le_one_left (sub_nonneg.mpr hlh) hf1
  simp only [quantileSorted]
  constructor
  · linarith
  · linarith

theorem quantileSorted_mono {s : List ℚ} (hs : List.Sorted (· ≤ ·) s)
    (hne : s ≠ []) {a c b : ℕ} (hb : 0 < b) (hac : a ≤ c) (hcb : c ≤ b) :
    quantileSorted s a b ≤ quantileSorted s c b := by
  have hn : 0 < s.length := List.length_pos.mpr hne
  have hij : a * (s.length - 1) / b ≤ c * (s.length - 1) / b :=
    Nat.div_le_div_right (mul_le_mul_right' hac _)
  have hjm : c * (s.length - 1) / b ≤ s.length - 1 := by
    have h1 : c * (s.length - 1) ≤ b * (s.length - 1) := by
      calc c * (s.length - 1) ≤ c * (s.length - 1) + (b - c) * (s.length - 1) :=
            Nat.le_add_right _ _
      _ = b * (s.length - 1) := by
            rw [← Nat.add_mul]
            congr 1
            omega
    calc c * (s.length - 1) / b ≤ b * (s.length - 1) / b :=
          Nat.div_le_div_right h1
    _ = s.length - 1 := Nat.mul_div_cancel_left _ hb
  have hjn : c * (s.length - 1) / b < s.length := by omega
  rcases Nat.eq_or_lt_of_le hij with heq | hlt
  · have hr : a * (s.length - 1) % b ≤ c * (s.length - 1) % b := by
      have e1 := Nat.mod_add_div (a * (s.length - 1)) b
      have e2 := Nat.mod_add_div (c * (s.length - 1)) b
      have e3 : a * (s.length - 1) ≤ c * (s.length - 1) := mul_le_mul_right' hac _
      rw [heq] at e1
      omega
    have hlh := quantile_lo_le_hi hs (a * (s.length - 1) / b)
    have hb0 : (0 : ℚ) < (b : ℚ) := by exact_mod_cast hb
    have hfr : ((a * (s.length - 1) % b : ℕ) : ℚ) / (b : ℚ) ≤
        ((c * (s.length - 1) % b : ℕ) : ℚ) / (b : ℚ) :=
      (div_le_div_iff_of_pos_right hb0).mpr (by exact_mod_cast hr)
    have hmul := mul_le_mul_of_nonneg_right hfr (sub_nonneg.mpr hlh)
    simp only [quantileSorted, ← heq]
    linarith
  · have hi1n : a * (s.length - 1) / b + 1 < s.length := by omega
    have hbd1 := (quantileSorted_bounds hs hb (a := a)).2
    have hbd2 := (quantileSorted_bounds hs hb (a := c)).1
    have e1 : s.getD (a * (s.length - 1) / b + 1)
        (s.getD (a * (s.length - 1) / b) 0) =
        s.getD (a * (s.length - 1) / b + 1) 0 := by
      rw [List.getD_eq_getElem _ _ hi1n, List.getD_eq_getElem _ _ hi1n]
    have mid : s.getD (a * (s.length - 1) / b + 1) 0 ≤
        s.getD (c * (s.length - 1) / b) 0 :=
      getD_sorted_le hs (by omega) hjn
    calc quantileSorted s a b ≤ _ := hbd1
    _ = s.getD (a * (s.length - 1) / b + 1) 0 := e1
    _ ≤ s.getD (c * (s.length - 1) / b) 0 := mid
    _ ≤ quantileSorted s c b := hbd2

theorem insertionSort_ne_nil {xs : List ℚ} (hne : xs ≠ []) :
    List.insertionSort (· ≤ ·) xs ≠ [] := by
  intro h0
  have hlen := (List.perm_insertionSort (· ≤ ·) xs).length_eq
  rw [h0] at hlen
  exact hne (List.length_eq_zero.mp hlen.symm)

theorem pandasQuantile_mono {xs : List ℚ} (hne : xs ≠ []) {a c b : ℕ}
    (hb : 0 < b) (hac : a ≤ c) (hcb : c ≤ b) :
    ∃ l h : ℚ, pandasQuantile xs a b = some l ∧ pandasQuantile xs c b = some h ∧
      l ≤ h := by
  refine ⟨quantileSorted (List.insertionSort (· ≤ ·) xs) a b,
    quantileSorted (List.insertionSort (· ≤ ·) xs) c b, ?_, ?_, ?_⟩
  · rw [pandasQuantile, if_neg hne]
  · rw [pandasQuantile, if_neg hne]
  · exact quantileSorted_mono (List.sorted_insertionSort (· ≤ ·) xs)
      (insertionSort_ne_nil hne) hb hac hcb

/-- C1: for every record of a successful run, `quality_label` is computed from
`final_score` by the fixed cut points: a final score at most 0.8 gives label 0
(Low), a score above 0.8 and at most 1.6 gives label 1 (Medium), and a larger
score gives label 2 (High); in particular a record whose final score is
exactly 0.8 receives label 0. -/
theorem C1_quality_label_cut_points :
    (∀ rows out, engineerWeakLabels rows = Except.ok out →
      ∀ y ∈ out, y.quality_label = qualityLabel y.final_score) ∧
    (∀ s : ℚ,
      (qualityLabel s = 0 ↔ s ≤ 0.8) ∧
      (qualityLabel s = 1 ↔ 0.8 < s ∧ s ≤ 1.6) ∧
      (qualityLabel s = 2 ↔ 1.6 < s)) ∧
    qualityLabel 0.8 = 0 := by
  refine ⟨?_, ?_, by norm_num [qualityLabel]⟩
  · intro rows out h y hy
    obtain ⟨r, _, hr⟩ := applyRows_ok_mem h y hy
    exact (scoreRow_ok_fields hr).2.2.2.2.2.2
  · intro s
    unfold qualityLabel
    split_ifs with h1 h2
    · refine ⟨⟨fun _ => h1, fun _ => rfl⟩, ?_, ?_⟩
      · constructor
        · intro h0; norm_num at h0
        · rintro ⟨ha, -⟩; linarith
      · constructor
        · intro h0; norm_num at h0
        · intro ha; linarith
    · push_neg at h1
      refine ⟨?_, ⟨fun _ => ⟨h1, h2⟩, fun _ => rfl⟩, ?_⟩
      · constructor
        · intro h0; norm_num at h0
        · intro ha; linarith
      · constructor
        · intro h0; norm_num at h0
        · intro ha; linarith
    · push_neg at h1 h2
      refine ⟨?_, ?_, ⟨fun _ => h2, fun _ => rfl⟩⟩
      · constructor
        · intro h0; norm_num at h0
        · intro ha; linarith
      · constructor
        · intro h0; norm_num at h0
        · rintro ⟨-, hb⟩; linarith

/-- C5: `final_score` is the fixed weighted sum
`0.5 * text_score + 0.2 * price_sanity_score + 0.3 * consistency_score`, lies
between 0.0 and 2.0 for in-range component scores, and is monotonically
non-decreasing in each component with the other two held fixed; the three
weights sum to 1.0. -/
theorem C5_final_score_weighted_sum (ts ps cs : ℕ)
    (hts : ts ≤ 2) (hps : ps ≤ 1) (hcs : cs ≤ 2) :
    finalScore ts ps cs = (ts : ℚ) * 0.5 + (ps : ℚ) * 0.2 + (cs : ℚ) * 0.3 ∧
    0 ≤ finalScore ts ps cs ∧ finalScore ts ps cs ≤ 2 ∧
    (∀ t2 : ℕ, ts ≤ t2 → finalScore ts ps cs ≤ finalScore t2 ps cs) ∧
    (∀ p2 : ℕ, ps ≤ p2 → finalScore ts ps cs ≤ finalScore ts p2 cs) ∧
    (∀ c2 : ℕ, cs ≤ c2 → finalScore ts ps cs ≤ finalScore ts ps c2) ∧
    (0.5 : ℚ) + 0.2 + 0.3 = 1 := by
  have h1 : (ts : ℚ) ≤ 2 := by exact_mod_cast hts
  have h2 : (ps : ℚ) ≤ 1 := by exact_mod_cast hps
  have h3 : (cs : ℚ) ≤ 2 := by exact_mod_cast hcs
  refine ⟨rfl, ?_, ?_, ?_, ?_, ?_, by norm_num⟩
  · unfold finalScore
    positivity
  · unfold finalScore
    linarith
  · intro t2 ht
    have h4 : (ts : ℚ) ≤ (t2 : ℚ) := by exact_mod_cast ht
    unfold finalScore
    linarith
  · intro p2 hp
    have h4 : (ps : ℚ) ≤ (p2 : ℚ) := by exact_mod_cast hp
    unfold finalScore
    linarith
  · intro c2 hc
    have h4 : (cs : ℚ) ≤ (c2 : ℚ) := by exact_mod_cast hc
    unfold finalScore
    linarith

/-- C5 witness: the theorem applied at text score 2, sanity score 1,
consistency score 2 (the maximal in-range components). -/
theorem C5_final_score_weighted_sum_witness :
    (2 : ℕ) ≤ 2 ∧ (1 : ℕ) ≤ 1 ∧
      0 ≤ finalScore 2 1 2 ∧ finalScore 2 1 2 ≤ 2 := by
  have h := C5_final_score_weighted_sum 2 1 2 (by norm_num) (by norm_num)
    (by norm_num)
  exact ⟨by norm_num, by norm_num, h.2.1, h.2.2.1⟩

/-- C8 counterexample: a run that fails in training (its first two steps,
the csv write and the fit attempt, happened and nothing later) leaves exactly
the labeled csv persisted - a partial on-disk state that is neither nothing
nor the full set of outputs. -/
theorem C8_atomicity_counterexample :
    persistedAfter 2 = [Artifact.labeledCsv] ∧
    persistedAfter 2 ≠ [] ∧
    persistedAfter 2 ≠ [Artifact.labeledCsv, Artifact.modelPkl,
      Artifact.tfidfPkl, Artifact.scalerPkl] := by
  exact ⟨rfl, by decide, by decide⟩

/-- C8 amended: `main` persists the labeled table before training, so a run
that fails during training leaves the labeled csv on disk with none of the
three model artifacts; only a run that completes every step persists the csv
together with all three artifacts, and the csv is on disk from the first
completed step onwards. -/
theorem C8_persistence_order :
    persistedAfter 0 = [] ∧
    persistedAfter 1 = [Artifact.labeledCsv] ∧
    persistedAfter 2 = [Artifact.labeledCsv] ∧
    persistedAfter 3 = [Artifact.labeledCsv, Artifact.modelPkl] ∧
    (∀ k : ℕ, persistedAfter (5 + k) =
      [Artifact.labeledCsv, Artifact.modelPkl, Artifact.tfidfPkl,
        Artifact.scalerPkl]) ∧
    (∀ k : ℕ, Artifact.labeledCsv ∈ persistedAfter (1 + k)) := by
  refine ⟨rfl, rfl, rfl, rfl, ?_, ?_⟩
  · intro k
    have hlen : runPersistSteps.length ≤ 5 + k := by
      simp [runPersistSteps]
    rw [persistedAfter, List.take_of_length_le hlen]
    rfl
  · intro k
    rw [persistedAfter, runPersistSteps, Nat.add_comm 1 k, List.take_succ_cons]
    simp

theorem tokenCount_ab : tokenCount "a b" = 2 := by decide

theorem tokenCount_cdef : tokenCount "c d e f" = 4 := by decide

theorem tokenCount_g : tokenCount "g" = 1 := by decide

theorem tokenCount_x : tokenCount "x" = 1 := by decide

theorem tokenCount_a : tokenCount "a" = 1 := by decide

theorem tokenCount_bc : tokenCount "b c" = 2 := by decide

theorem tokenCount_d : tokenCount "d" = 1 := by decide

theorem sample_pwc : presentWordCounts sampleRows = [2, 4, 1] := by
  simp [presentWordCounts, sampleRows, wordCount_some, wordCount_none,
    tokenCount_ab, tokenCount_cdef, tokenCount_g]

theorem sample_lowWc : lowWc sampleRows = some (3/2) := by
  rw [lowWc, sample_pwc, pandasQuantile, if_neg (by simp)]
  norm_num [List.insertionSort, List.orderedInsert, quantileSorted]

theorem sample_highWc : highWc sampleRows = some 3 := by
  rw [highWc, sample_pwc, pandasQuantile, if_neg (by simp)]
  norm_num [List.insertionSort, List.orderedInsert, quantileSorted]

theorem sample_prices : sampleRows.map Row.price = [4, 1, 2, 3] := by
  simp [sampleRows]

theorem sample_q1 : priceQ1 sampleRows = some (7/4) := by
  rw [priceQ1, sample_prices, pandasQuantile, if_neg (by simp)]
  norm_num [List.insertionSort, List.orderedInsert, quantileSorted]

theorem sample_q3 : priceQ3 sampleRows = some (13/4) := by
  rw [priceQ3, sample_prices, pandasQuantile, if_neg (by simp)]
  norm_num [List.insertionSort, List.orderedInsert, quantileSorted]

theorem sample_lower : fenceLower sampleRows = some (-(1/2)) := by
  rw [fenceLower, sample_q1, sample_q3]
  norm_num

theorem sample_upper : fenceUpper sampleRows = some (11/2) := by
  rw [fenceUpper, sample_q1, sample_q3]
  norm_num

theorem sample_edges :
    qcutEdges [(4 : ℚ), 1, 2, 3] = [1, 8/5, 11/5, 14/5, 17/5, 4] := by
  rw [qcutEdges, if_neg (by simp)]
  norm_num [List.insertionSort, List.orderedInsert, quantileSorted, List.dedup]

theorem sample_bin4 :
    binOf [(1 : ℚ), 8/5, 11/5, 14/5, 17/5, 4] 4 = some 4 := by
  norm_num [binOf, List.countP, List.countP.go]

theorem sample_bin0 :
    binOf [(1 : ℚ), 8/5, 11/5, 14/5, 17/5, 4] 1 = some 0 := by
  norm_num [binOf, List.countP, List.countP.go]

theorem sample_bin1 :
    binOf [(1 : ℚ), 8/5, 11/5, 14/5, 17/5, 4] 2 = some 1 := by
  norm_num [binOf, List.countP, List.countP.go]

theorem sample_bin3 :
    binOf [(1 : ℚ), 8/5, 11/5, 14/5, 17/5, 4] 3 = some 3 := by
  norm_num [binOf, List.countP, List.countP.go]

theorem sample_bm4 :
    binMean [⟨none, 4⟩, ⟨some "a b", 1⟩, ⟨some "c d e f", 2⟩, ⟨some "g", 3⟩]
      [(1 : ℚ), 8/5, 11/5, 14/5, 17/5, 4] 4 = none := by
  norm_num [binMean, sample_bin4, sample_bin0, sample_bin1, sample_bin3,
    List.filter, List.filterMap_cons, wordCount_some, wordCount_none,
    tokenCount_ab, tokenCount_cdef, tokenCount_g]

theorem sample_bm0 :
    binMean [⟨none, 4⟩, ⟨some "a b", 1⟩, ⟨some "c d e f", 2⟩, ⟨some "g", 3⟩]
      [(1 : ℚ), 8/5, 11/5, 14/5, 17/5, 4] 0 = some 2 := by
  norm_num [binMean, sample_bin4, sample_bin0, sample_bin1, sample_bin3,
    List.filter, List.filterMap_cons, wordCount_some, wordCount_none,
    tokenCount_ab, tokenCount_cdef, tokenCount_g]

theorem sample_bm1 :
    binMean [⟨none, 4⟩, ⟨some "a b", 1⟩, ⟨some "c d e f", 2⟩, ⟨some "g", 3⟩]
      [(1 : ℚ), 8/5, 11/5, 14/5, 17/5, 4] 1 = some 4 := by
  norm_num [binMean, sample_bin4, sample_bin0, sample_bin1, sample_bin3,
    List.filter, List.filterMap_cons, wordCount_some, wordCount_none,
    tokenCount_ab, tokenCount_cdef, tokenCount_g]

theorem sample_bm3 :
    binMean [⟨none, 4⟩, ⟨some "a b", 1⟩, ⟨some "c d e f", 2⟩, ⟨some "g", 3⟩]
      [(1 : ℚ), 8/5, 11/5, 14/5, 17/5, 4] 3 = some 1 := by
  norm_num [binMean, sample_bin4, sample_bin0, sample_bin1, sample_bin3,
    List.filter, List.filterMap_cons, wordCount_some, wordCount_none,
    tokenCount_ab, tokenCount_cdef, tokenCount_g]

theorem sample_run : engineerWeakLabels sampleRows = Except.ok sampleOut := by
  unfold engineerWeakLabels
  rw [sample_lowWc, sample_highWc, sample_lower, sample_upper, sample_prices,
    sample_edges, sampleRows, sampleOut]
  norm_num [applyRows, scoreRow, sample_bin4, sample_bin0, sample_bin1,
    sample_bin3, sample_bm4, sample_bm0, sample_bm1, sample_bm3,
    wordCount_some, wordCount_none, tokenCount_ab, tokenCount_cdef,
    tokenCount_g, textScore, oLT, oLE, priceOutlier, priceSanityScore,
    consistencyScore, finalScore, qualityLabel]

theorem scenario_pwc : presentWordCounts outlierScenarioRows = [1, 1, 1, 1, 1] := by
  simp [presentWordCounts, outlierScenarioRows, wordCount_some, tokenCount_x]

theorem scenario_lowWc : lowWc outlierScenarioRows = some 1 := by
  rw [lowWc, scenario_pwc, pandasQuantile, if_neg (by simp)]
  norm_num [List.insertionSort, List.orderedInsert, quantileSorted]

theorem scenario_highWc : highWc outlierScenarioRows = some 1 := by
  rw [highWc, scenario_pwc, pandasQuantile, if_neg (by simp)]
  norm_num [List.insertionSort, List.orderedInsert, quantileSorted]

theorem scenario_prices :
    outlierScenarioRows.map Row.price = [10, 10, 10, 10, 1000] := by
  simp [outlierScenarioRows]

theorem scenario_q1 : priceQ1 outlierScenarioRows = some 10 := by
  rw [priceQ1, scenario_prices, pandasQuantile, if_neg (by simp)]
  norm_num [List.insertionSort, List.orderedInsert, quantileSorted]

theorem scenario_q3 : priceQ3 outlierScenarioRows = some 10 := by
  rw [priceQ3, scenario_prices, pandasQuantile, if_neg (by simp)]
  norm_num [List.insertionSort, List.orderedInsert, quantileSorted]

theorem scenario_lower : fenceLower outlierScenarioRows = some 10 := by
  rw [fenceLower, scenario_q1, scenario_q3]
  norm_num

theorem scenario_upper : fenceUpper outlierScenarioRows = some 10 := by
  rw [fenceUpper, scenario_q1, scenario_q3]
  norm_num

theorem scenario_edges :
    qcutEdges [(10 : ℚ), 10, 10, 10, 1000] = [10, 208, 1000] := by
  rw [qcutEdges, if_neg (by simp)]
  norm_num [List.insertionSort, List.orderedInsert, quantileSorted, List.dedup]

theorem scenario_bin10 : binOf [(10 : ℚ), 208, 1000] 10 = some 0 := by
  norm_num [binOf, List.countP, List.countP.go]

theorem scenario_bin1000 : binOf [(10 : ℚ), 208, 1000] 1000 = some 1 := by
  norm_num [binOf, List.countP, List.countP.go]

theorem scenario_bm0 :
    binMean [⟨some "x", 10⟩, ⟨some "x", 10⟩, ⟨some "x", 10⟩, ⟨some "x", 10⟩,
        ⟨some "x", 1000⟩]
      [(10 : ℚ), 208, 1000] 0 = some 1 := by
  norm_num [binMean, scenario_bin10, scenario_bin1000, List.filter,
    List.filterMap_cons, wordCount_some, tokenCount_x]
  intro h
  exact absurd h (by simp)

theorem scenario_bm1 :
    binMean [⟨some "x", 10⟩, ⟨some "x", 10⟩, ⟨some "x", 10⟩, ⟨some "x", 10⟩,
        ⟨some "x", 1000⟩]
      [(10 : ℚ), 208, 1000] 1 = some 1 := by
  norm_num [binMean, scenario_bin10, scenario_bin1000, List.filter,
    List.filterMap_cons, wordCount_some, tokenCount_x]

theorem scenario_run :
    engineerWeakLabels outlierScenarioRows = Except.ok outlierScenarioOut := by
  unfold engineerWeakLabels
  rw [scenario_lowWc, scenario_highWc, scenario_lower, scenario_upper,
    scenario_prices, scenario_edges, outlierScenarioRows, outlierScenarioOut]
  norm_num [applyRows, scoreRow, scenario_bin10, scenario_bin1000,
    scenario_bm0, scenario_bm1, wordCount_some, tokenCount_x, textScore, oLT,
    oLE, priceOutlier, priceSanityScore, consistencyScore, finalScore,
    qualityLabel]

theorem constPrice_prices : constPriceRows.map Row.price = [10, 10, 10] := by
  simp [constPriceRows]

theorem constPrice_edges : qcutEdges [(10 : ℚ), 10, 10] = [10] := by
  rw [qcutEdges, if_neg (by simp)]
  norm_num [List.insertionSort, List.orderedInsert, quantileSorted, List.dedup]

theorem constPrice_bin : binOf [(10 : ℚ)] 10 = none := by
  norm_num [binOf, List.countP, List.countP.go]

theorem textScore_some_iff (q1 q3 w : ℚ) (h13 : q1 ≤ q3) :
    (textScore (some q1) (some q3) (some w) = 0 ↔ w < q1) ∧
    (textScore (some q1) (some q3) (some w) = 1 ↔ q1 ≤ w ∧ w ≤ q3) ∧
    (textScore (some q1) (some q3) (some w) = 2 ↔ q3 < w) ∧
    (w = q1 → textScore (some q1) (some q3) (some w) = 1) := by
  unfold textScore oLT oLE
  simp only [decide_eq_true_eq]
  split_ifs with hlt hle
  · refine ⟨⟨fun _ => hlt, fun _ => rfl⟩, ?_, ?_, ?_⟩
    · constructor
      · intro h0; norm_num at h0
      · rintro ⟨ha, -⟩; linarith
    · constructor
      · intro h0; norm_num at h0
      · intro ha; linarith
    · rintro rfl; linarith
  · push_neg at hlt
    refine ⟨?_, ⟨fun _ => ⟨hlt, hle⟩, fun _ => rfl⟩, ?_, fun _ => rfl⟩
    · constructor
      · intro h0; norm_num at h0
      · intro ha; linarith
    · constructor
      · intro h0; norm_num at h0
      · intro ha; linarith
  · push_neg at hlt hle
    refine ⟨?_, ?_, ⟨fun _ => hle, fun _ => rfl⟩, ?_⟩
    · constructor
      · intro h0; norm_num at h0
      · intro ha; linarith
    · constructor
      · intro h0; norm_num at h0
      · rintro ⟨-, hb⟩; linarith
    · rintro rfl; linarith

theorem priceOutlier_fence_iff (lo hi p : ℚ) (hlohi : lo ≤ hi) :
    (priceOutlier (some lo) (some hi) p = true ↔ ¬(lo ≤ p ∧ p ≤ hi)) ∧
    ((p = lo ∨ p = hi) → priceOutlier (some lo) (some hi) p = false) := by
  unfold priceOutlier oLT
  constructor
  · simp only [Bool.or_eq_true, decide_eq_true_eq]
    constructor
    · rintro (h | h) ⟨ha, hb⟩ <;> linarith
    · intro h
      rcases not_and_or.mp h with h | h
      · exact Or.inl (not_le.mp h)
      · exact Or.inr (not_le.mp h)
  · rintro (rfl | rfl) <;>
      simp only [Bool.or_eq_false_iff, decide_eq_false_iff_not, not_lt]
    · exact ⟨le_refl _, hlohi⟩
    · exact ⟨hlohi, le_refl _⟩

theorem priceSanityScore_iff (b : Bool) :
    (priceSanityScore b = 1 ↔ b = false) ∧ (priceSanityScore b = 0 ↔ b = true) := by
  cases b <;> simp [priceSanityScore]

/-- C2: for every table with at least one non-missing word count, `text_score`
buckets each record's `word_count` by the table's own 25th and 75th
percentiles: 0 strictly below the 25th percentile, 1 from the 25th up to and
including the 75th, 2 strictly above the 75th; in particular a record whose
word count equals the 25th-percentile value receives text score 1, not 0. -/
theorem C2_text_score_percentile_buckets (rows : List Row)
    (out : List LabeledRow) (hok : engineerWeakLabels rows = Except.ok out)
    (hne : presentWordCounts rows ≠ []) :
    ∃ q1 q3 : ℚ, lowWc rows = some q1 ∧ highWc rows = some q3 ∧ q1 ≤ q3 ∧
      ∀ y ∈ out, ∀ w : ℕ, y.word_count = some w →
        (y.text_score = 0 ↔ (w : ℚ) < q1) ∧
        (y.text_score = 1 ↔ q1 ≤ (w : ℚ) ∧ (w : ℚ) ≤ q3) ∧
        (y.text_score = 2 ↔ q3 < (w : ℚ)) ∧
        ((w : ℚ) = q1 → y.text_score = 1) := by
  obtain ⟨q1, q3, h1, h3, h13⟩ :=
    pandasQuantile_mono (a := 1) (c := 3) (b := 4) hne (by norm_num)
      (by norm_num) (by norm_num)
  have h1w : lowWc rows = some q1 := h1
  have h3w : highWc rows = some q3 := h3
  refine ⟨q1, q3, h1w, h3w, h13, ?_⟩
  intro y hy w hw
  unfold engineerWeakLabels at hok
  obtain ⟨r, _, hr⟩ := applyRows_ok_mem hok y hy
  have hf := scoreRow_ok_fields hr
  rw [hf.1] at hw
  have hts := hf.2.1
  rw [hw, h1w, h3w] at hts
  simp only [Option.map] at hts
  rw [hts]
  exact textScore_some_iff q1 q3 (w : ℚ) h13

/-- C2 witness: the claim theorem applied to the sample table. -/
theorem C2_text_score_percentile_buckets_witness :
    engineerWeakLabels sampleRows = Except.ok sampleOut ∧
    presentWordCounts sampleRows ≠ [] ∧
    (∃ q1 q3 : ℚ, lowWc sampleRows = some q1 ∧ highWc sampleRows = some q3 ∧
      q1 ≤ q3 ∧ ∀ y ∈ sampleOut, ∀ w : ℕ, y.word_count = some w →
        (y.text_score = 0 ↔ (w : ℚ) < q1) ∧
        (y.text_score = 1 ↔ q1 ≤ (w : ℚ) ∧ (w : ℚ) ≤ q3) ∧
        (y.text_score = 2 ↔ q3 < (w : ℚ)) ∧
        ((w : ℚ) = q1 → y.text_score = 1)) := by
  have hne : presentWordCounts sampleRows ≠ [] := by
    rw [sample_pwc]
    simp
  exact ⟨sample_run, hne,
    C2_text_score_percentile_buckets sampleRows sampleOut sample_run hne⟩

/-- C3 counterexample: in the sample table the first record has a missing
`catalog_content`; `engineer_weak_labels` gives it a missing (NaN)
`word_count`, not 0, because `.str.split().str.len()` propagates NaN. -/
theorem C3_word_count_counterexample :
    engineerWeakLabels sampleRows = Except.ok sampleOut ∧
    (sampleRows.getD 0 default).catalog_content = none ∧
    (sampleOut.getD 0 default).word_count = none ∧
    (sampleOut.getD 0 default).word_count ≠ some 0 := by
  refine ⟨sample_run, rfl, rfl, by decide⟩

/-- C3 amended: for every record of a successful run, `word_count` is the
whitespace token count of `catalog_content` when the text is present (an
empty text giving 0), while a missing text yields a missing (NaN)
`word_count` rather than 0. -/
theorem C3_word_count_amended (rows : List Row) (out : List LabeledRow)
    (hok : engineerWeakLabels rows = Except.ok out) :
    (∀ i (h1 : i < rows.length) (h2 : i < out.length),
      (out.get ⟨i, h2⟩).word_count =
        wordCount (rows.get ⟨i, h1⟩).catalog_content) ∧
    (∀ s, wordCount (some s) = some (tokenCount s)) ∧
    wordCount none = none ∧
    tokenCount "" = 0 := by
  refine ⟨?_, fun s => rfl, rfl, by decide⟩
  intro i h1 h2
  unfold engineerWeakLabels at hok
  exact (scoreRow_ok_fields (applyRows_ok_get hok i h1 h2)).1

/-- C3 witness: the amended theorem applied to the sample table. -/
theorem C3_word_count_amended_witness :
    engineerWeakLabels sampleRows = Except.ok sampleOut ∧
    (∀ i (h1 : i < sampleRows.length) (h2 : i < sampleOut.length),
      (sampleOut.get ⟨i, h2⟩).word_count =
        wordCount (sampleRows.get ⟨i, h1⟩).catalog_content) := by
  exact ⟨sample_run,
    (C3_word_count_amended sampleRows sampleOut sample_run).1⟩

/-- C4: for every non-empty table on which the run succeeds, a record is a
price outlier exactly when its price lies strictly outside the Tukey fence
`[Q1 - 1.5 IQR, Q3 + 1.5 IQR]` of the table's price distribution (a price on
a fence is not an outlier), and `price_sanity_score` is 1 exactly on
non-outliers and 0 exactly on outliers; moreover, in the concrete scenario of
a single record priced at 100 times the median of an otherwise tight price
distribution, that record is flagged `price_outlier = true` with
`price_sanity_score = 0`. -/
theorem C4_price_outlier_tukey_fence :
    (∀ rows out, engineerWeakLabels rows = Except.ok out → rows ≠ [] →
      ∃ q1 q3 : ℚ, priceQ1 rows = some q1 ∧ priceQ3 rows = some q3 ∧
        fenceLower rows = some (q1 - 1.5 * (q3 - q1)) ∧
        fenceUpper rows = some (q3 + 1.5 * (q3 - q1)) ∧
        ∀ i (h1 : i < rows.length) (h2 : i < out.length),
          ((out.get ⟨i, h2⟩).price_outlier = true ↔
            ¬(q1 - 1.5 * (q3 - q1) ≤ (rows.get ⟨i, h1⟩).price ∧
              (rows.get ⟨i, h1⟩).price ≤ q3 + 1.5 * (q3 - q1))) ∧
          ((out.get ⟨i, h2⟩).price_sanity_score = 1 ↔
            (out.get ⟨i, h2⟩).price_outlier = false) ∧
          ((out.get ⟨i, h2⟩).price_sanity_score = 0 ↔
            (out.get ⟨i, h2⟩).price_outlier = true) ∧
          (((rows.get ⟨i, h1⟩).price = q1 - 1.5 * (q3 - q1) ∨
              (rows.get ⟨i, h1⟩).price = q3 + 1.5 * (q3 - q1)) →
            (out.get ⟨i, h2⟩).price_outlier = false)) ∧
    (engineerWeakLabels outlierScenarioRows = Except.ok outlierScenarioOut ∧
      (outlierScenarioOut.getD 4 default).price_outlier = true ∧
      (outlierScenarioOut.getD 4 default).price_sanity_score = 0) := by
  constructor
  · intro rows out hok hne
    have hpne : rows.map Row.price ≠ [] := by
      simpa using hne
    obtain ⟨q1, q3, h1, h3, h13⟩ :=
      pandasQuantile_mono (a := 1) (c := 3) (b := 4) hpne (by norm_num)
        (by norm_num) (by norm_num)
    have h1w : priceQ1 rows = some q1 := h1
    have h3w : priceQ3 rows = some q3 := h3
    have hlow : fenceLower rows = some (q1 - 1.5 * (q3 - q1)) := by
      unfold fenceLower
      rw [h1w, h3w]
    have hupp : fenceUpper rows = some (q3 + 1.5 * (q3 - q1)) := by
      unfold fenceUpper
      rw [h1w, h3w]
    have hfence : q1 - 1.5 * (q3 - q1) ≤ q3 + 1.5 * (q3 - q1) := by linarith
    refine ⟨q1, q3, h1w, h3w, hlow, hupp, ?_⟩
    intro i hi1 hi2
    unfold engineerWeakLabels at hok
    have hr := applyRows_ok_get hok i hi1 hi2
    have hf := scoreRow_ok_fields hr
    have hpo := hf.2.2.1
    rw [hlow, hupp] at hpo
    have hiff := priceOutlier_fence_iff (q1 - 1.5 * (q3 - q1))
      (q3 + 1.5 * (q3 - q1)) ((rows.get ⟨i, hi1⟩).price) hfence
    refine ⟨?_, ?_, ?_, ?_⟩
    · rw [hpo]
      exact hiff.1
    · rw [hf.2.2.2.1]
      exact (priceSanityScore_iff _).1
    · rw [hf.2.2.2.1]
      exact (priceSanityScore_iff _).2
    · intro hp
      rw [hpo]
      exact hiff.2 hp
  · exact ⟨scenario_run, rfl, rfl⟩

/-- C4 witness: the universal part of the claim theorem applied to the sample
table. -/
theorem C4_price_outlier_tukey_fence_witness :
    engineerWeakLabels sampleRows = Except.ok sampleOut ∧ sampleRows ≠ [] ∧
    (∃ q1 q3 : ℚ, priceQ1 sampleRows = some q1 ∧ priceQ3 sampleRows = some q3 ∧
      fenceLower sampleRows = some (q1 - 1.5 * (q3 - q1)) ∧
      fenceUpper sampleRows = some (q3 + 1.5 * (q3 - q1)) ∧
      ∀ i (h1 : i < sampleRows.length) (h2 : i < sampleOut.length),
        ((sampleOut.get ⟨i, h2⟩).price_outlier = true ↔
          ¬(q1 - 1.5 * (q3 - q1) ≤ (sampleRows.get ⟨i, h1⟩).price ∧
            (sampleRows.get ⟨i, h1⟩).price ≤ q3 + 1.5 * (q3 - q1))) ∧
        ((sampleOut.get ⟨i, h2⟩).price_sanity_score = 1 ↔
          (sampleOut.get ⟨i, h2⟩).price_outlier = false) ∧
        ((sampleOut.get ⟨i, h2⟩).price_sanity_score = 0 ↔
          (sampleOut.get ⟨i, h2⟩).price_outlier = true) ∧
        (((sampleRows.get ⟨i, h1⟩).price = q1 - 1.5 * (q3 - q1) ∨
            (sampleRows.get ⟨i, h1⟩).price = q3 + 1.5 * (q3 - q1)) →
          (sampleOut.get ⟨i, h2⟩).price_outlier = false)) := by
  refine ⟨sample_run, by simp [sampleRows], ?_⟩
  exact C4_price_outlier_tukey_fence.1 sampleRows sampleOut sample_run
    (by simp [sampleRows])

/-- C6 counterexample: `engineer_weak_labels` assigns the derived columns onto
the caller's DataFrame, so after the call on the sample table the caller's
table carries the derived columns - the claim that the caller's input table is
not modified fails. -/
theorem C6_purity_counterexample :
    engineerWeakLabelsCall sampleRows =
      Except.ok ((sampleRows, some sampleOut), (sampleRows, some sampleOut)) ∧
    ((sampleRows, some sampleOut) : TableState) ≠ (sampleRows, none) := by
  constructor
  · unfold engineerWeakLabelsCall
    rw [sample_run]
  · simp

/-- C6 amended: `engineer_weak_labels` returns its input table with exactly
the eight derived columns added, one derived row per input row and the
pre-existing columns and rows unchanged; but it is not free of side effects:
the derived columns are assigned onto the caller's table in place, so after
the call the caller's table is the very augmented table that is returned. -/
theorem C6_frame_amended (base : List Row) (out : List LabeledRow)
    (hok : engineerWeakLabels base = Except.ok out) :
    engineerWeakLabelsCall base =
      Except.ok ((base, some out), (base, some out)) ∧
    out.length = base.length ∧
    ((base, some out) : TableState) ≠ (base, none) := by
  refine ⟨?_, ?_, by simp⟩
  · unfold engineerWeakLabelsCall
    rw [hok]
  · unfold engineerWeakLabels at hok
    exact applyRows_ok_length hok

/-- C6 witness: the amended theorem applied to the sample table. -/
theorem C6_frame_amended_witness :
    engineerWeakLabels sampleRows = Except.ok sampleOut ∧
    engineerWeakLabelsCall sampleRows =
      Except.ok ((sampleRows, some sampleOut), (sampleRows, some sampleOut)) ∧
    sampleOut.length = sampleRows.length := by
  have h := C6_frame_amended sampleRows sampleOut sample_run
  exact ⟨sample_run, h.1, h.2.1⟩

/-- C7: evaluation at the failing input: on a table that has both required
columns but a constant price column, `engineer_weak_labels` raises (KeyError
on the NaN price bin) instead of succeeding, contradicting the claim that it
succeeds on every table containing both required columns, degenerate price
distributions included. -/
theorem C7_constant_price_crash :
    engineerWeakLabels constPriceRows = Except.error "KeyError: nan" := by
  unfold engineerWeakLabels
  rw [constPrice_prices, constPrice_edges, constPriceRows]
  norm_num [applyRows, scoreRow, constPrice_bin]

/-- C10: for every record of a successful run, the derived scores stay in
their declared codomains: `text_score` in {0,1,2}, `price_sanity_score` in
{0,1}, `consistency_score` in {0,1,2} and `quality_label` in {0,1,2}. -/
theorem C10_score_codomains (rows : List Row) (out : List LabeledRow)
    (hok : engineerWeakLabels rows = Except.ok out) :
    ∀ y ∈ out,
      (y.text_score = 0 ∨ y.text_score = 1 ∨ y.text_score = 2) ∧
      (y.price_sanity_score = 0 ∨ y.price_sanity_score = 1) ∧
      (y.consistency_score = 0 ∨ y.consistency_score = 1 ∨
        y.consistency_score = 2) ∧
      (y.quality_label = 0 ∨ y.quality_label = 1 ∨ y.quality_label = 2) := by
  intro y hy
  unfold engineerWeakLabels at hok
  obtain ⟨r, _, hr⟩ := applyRows_ok_mem hok y hy
  have hf := scoreRow_ok_fields hr
  refine ⟨?_, ?_, ?_, ?_⟩
  · rw [hf.2.1]
    exact textScore_cases _ _ _
  · rw [hf.2.2.2.1]
    exact priceSanityScore_cases _
  · obtain ⟨b, -, -, hcs⟩ := hf.2.2.2.2.1
    rw [hcs]
    exact consistencyScore_cases _ _
  · rw [hf.2.2.2.2.2.2]
    exact qualityLabel_cases _

/-- C10 witness: the claim theorem applied to the sample table. -/
theorem C10_score_codomains_witness :
    engineerWeakLabels sampleRows = Except.ok sampleOut ∧
    (∀ y ∈ sampleOut,
      (y.text_score = 0 ∨ y.text_score = 1 ∨ y.text_score = 2) ∧
      (y.price_sanity_score = 0 ∨ y.price_sanity_score = 1) ∧
      (y.consistency_score = 0 ∨ y.consistency_score = 1 ∨
        y.consistency_score = 2) ∧
      (y.quality_label = 0 ∨ y.quality_label = 1 ∨ y.quality_label = 2)) := by
  exact ⟨sample_run, C10_score_codomains sampleRows sampleOut sample_run⟩

/-- C9: the vectorizer's vocabulary in `train_baseline_model` is a function of
the training split alone - the validation split is only transformed with the
training-fitted vocabulary, so replacing, permuting or duplicating the
validation documents leaves the learned vocabulary unchanged. -/
theorem C9_vocabulary_no_leakage
    (trainDocs valDocs valDocs2 : List (List String)) :
    (trainTextFeatures trainDocs valDocs).1 = fitVocabulary trainDocs ∧
    (trainTextFeatures trainDocs valDocs).1 =
      (trainTextFeatures trainDocs valDocs2).1 ∧
    (trainTextFeatures trainDocs (valDocs ++ valDocs)).1 =
      (trainTextFeatures trainDocs valDocs).1 ∧
    (trainTextFeatures trainDocs valDocs.reverse).1 =
      (trainTextFeatures trainDocs valDocs).1 := by
  exact ⟨rfl, rfl, rfl, rfl⟩

/-- C1 witness: the pipeline part of the claim theorem applied to the sample
table, together with its closed boundary fact. -/
theorem C1_quality_label_cut_points_witness :
    engineerWeakLabels sampleRows = Except.ok sampleOut ∧
    (∀ y ∈ sampleOut, y.quality_label = qualityLabel y.final_score) ∧
    qualityLabel 0.8 = 0 := by
  exact ⟨sample_run,
    C1_quality_label_cut_points.1 sampleRows sampleOut sample_run,
    C1_quality_label_cut_points.2.2⟩

end ECommerce
